import Mathlib

/-!
Shallow embedding of the ByteAccordion library core
(ConsumableBuffer, ConsumableFile, ExpandingBuffer, ExpandingFile,
StreamPipeline) and verification of its specification.

Conventions of the embedding:
* A node.js `Buffer` is a `List Nat` of byte values (each value in 0..255
  after normalization).
* JS numeric arguments are modelled as `Int` (integral values; the
  NaN/Infinity guards of the source are vacuous on integers, and
  `Math.floor` is the identity).
* A JS method that may `throw` while also mutating `this` is modelled as a
  function returning `Except RErr α × State`: the outcome paired with the
  state after the call (unchanged when the throw happens before any
  mutation).
* File-system reads/writes are modelled on the explicit `contents` list
  carried in the state.
-/

namespace ByteAccordion

/-- Error kinds surfaced by the library (one constructor per distinct
`throw` site family in the source). -/
inductive RErr where
  | notOpened
  | invalidArg
  | outOfRange
  | shortRead
  | ioError
  deriving Repr, DecidableEq

/-! ### ConsumableBuffer (src/ConsumableBuffer.ts) -/

structure ConsumableBuffer where
  /-- the original Buffer instance provided at construction -/
  originalBuffer : List Nat
  /-- the current working Buffer instance -/
  buf : List Nat
  deriving Repr, DecidableEq

namespace ConsumableBuffer

/-- `new ConsumableBuffer(buf)`: `this.originalBuffer = buf; this.buf = buf`. -/
def make (b : List Nat) : ConsumableBuffer := ⟨b, b⟩

/-- `reset()`: `this.buf = this.originalBuffer`. -/
def reset (s : ConsumableBuffer) : ConsumableBuffer :=
  { s with buf := s.originalBuffer }

/-- `read(bytes)`: throws on `bytes <= 0` (the NaN/infinity guards are
vacuous on integers), floors (identity on integers), range-checks
against `this.buf.length`, then slices the front off the working buffer. -/
def read (s : ConsumableBuffer) (bytes : Int) :
    Except RErr (List Nat) × ConsumableBuffer :=
  if bytes ≤ 0 then (.error .invalidArg, s)
  else
    let b := bytes.toNat
    if s.buf.length < b then (.error .outOfRange, s)
    else (.ok (s.buf.take b), { s with buf := s.buf.drop b })

/-- `seek(bytes)`: range-checks against `this.buf.length`, then delegates
to `read(bytes)` discarding the data. -/
def seek (s : ConsumableBuffer) (bytes : Int) :
    Except RErr Unit × ConsumableBuffer :=
  if (s.buf.length : Int) < bytes then (.error .outOfRange, s)
  else
    match read s bytes with
    | (.ok _, s') => (.ok (), s')
    | (.error e, s') => (.error e, s')

/-- `aseek(bytes)`: `await this.reset(); await this.seek(bytes)`. -/
def aseek (s : ConsumableBuffer) (bytes : Int) :
    Except RErr Unit × ConsumableBuffer :=
  seek (reset s) bytes

end ConsumableBuffer

/-! ### ConsumableFile (src/ConsumableFile.ts) -/

structure ConsumableFile where
  /-- the bytes of the underlying file on disk (target of `fs.read`);
  may differ in length from the recorded `filesize` if the file was
  externally modified after `open()` -/
  contents : List Nat
  /-- whether a file descriptor is currently held (`this.fd` present) -/
  fd : Bool
  /-- `this.filesize`, captured at open time; `none` when not open -/
  filesize : Option Int
  /-- `this.position`, the current absolute read offset -/
  position : Int
  deriving Repr, DecidableEq

namespace ConsumableFile

/-- State right after a successful `open()` on a file whose bytes are
`contents`: handle held, `filesize` recorded, `position = 0`. -/
def openFile (contents : List Nat) : ConsumableFile :=
  { contents := contents, fd := true, filesize := some contents.length,
    position := 0 }

/-- `reset()`: `this.position = 0` (handle untouched). -/
def reset (s : ConsumableFile) : ConsumableFile := { s with position := 0 }

/-- `read(bytes)`: not-opened check, positive-integer check, bounds check
`position + bytes > filesize`, then a positioned `fs.read` (which node
rejects outright for a negative offset, before any mutation), then
`position += bytes` and only afterwards the short-read check on
`bytesRead !== bytes`. -/
def read (s : ConsumableFile) (bytes : Int) :
    Except RErr (List Nat) × ConsumableFile :=
  if s.fd = false then (.error .notOpened, s)
  else
    match s.filesize with
    | none => (.error .notOpened, s)
    | some fsz =>
      if bytes ≤ 0 then (.error .invalidArg, s)
      else if fsz < s.position + bytes then (.error .outOfRange, s)
      else if s.position < 0 then (.error .ioError, s)
      else
        let data := (s.contents.drop s.position.toNat).take bytes.toNat
        let s' := { s with position := s.position + bytes }
        if (data.length : Int) = bytes then (.ok data, s')
        else (.error .shortRead, s')

/-- `aseek(bytes)`: not-opened check, positive-number check, defensive
range check of the *current* position against `filesize`, then
`this.position = Math.floor(bytes)` (floor is the identity on integers). -/
def aseek (s : ConsumableFile) (bytes : Int) :
    Except RErr Unit × ConsumableFile :=
  if s.fd = false then (.error .notOpened, s)
  else
    match s.filesize with
    | none => (.error .notOpened, s)
    | some fsz =>
      if bytes ≤ 0 then (.error .invalidArg, s)
      else if fsz < s.position then (.error .outOfRange, s)
      else (.ok (), { s with position := bytes })

/-- `seek(bytes)`: `await this.aseek(this.position += bytes)` — note the
compound assignment updates `this.position` to `position + bytes` *before*
`aseek` runs, and passes that new value as the argument. -/
def seek (s : ConsumableFile) (bytes : Int) :
    Except RErr Unit × ConsumableFile :=
  aseek { s with position := s.position + bytes } (s.position + bytes)

end ConsumableFile

/-! ### Write-input normalization (shared by ExpandingBuffer.write and
ExpandingFile.write) -/

/-- The input union `Buffer | number[] | string | number` accepted by
`write`. -/
inductive WriteInput where
  | bytes (b : List Nat)
  | arr (a : List Int)
  | str (s : String)
  | num (n : Int)

/-- node's numeric-to-byte coercion used by `Buffer.from([v])` and
`Buffer.from(array)`: the value is reduced modulo 256 (the low 8 bits of
the two's-complement representation); `Int.emod` yields exactly that
non-negative representative. -/
def toByte (v : Int) : Nat := (v % 256).toNat

/-- The `inBuffer` computation shared verbatim by `ExpandingBuffer.write`
and `ExpandingFile.write`: a Buffer passes through, an array maps through
the byte coercion, a string is UTF-8 encoded, a single number becomes the
one-byte buffer `Buffer.from([input])`. -/
def normalizeInput : WriteInput → List Nat
  | .bytes b => b
  | .arr a => a.map toByte
  | .str s => s.toUTF8.toList.map (fun c => c.toNat)
  | .num n => [toByte n]

/-! ### ExpandingBuffer (src/ExpandingBuffer.ts) -/

structure ExpandingBuffer where
  /-- the accumulated Buffer -/
  buf : List Nat
  /-- `this.position`; the source maintains it equal to `buf.length` -/
  position : Nat
  deriving Repr, DecidableEq

namespace ExpandingBuffer

/-- `new ExpandingBuffer()`: empty buffer, position 0 (also the state
`reset()` produces). -/
def empty : ExpandingBuffer := ⟨[], 0⟩

/-- `reset()`: `this.buf = Buffer.alloc(0); this.position = 0`. -/
def reset (_ : ExpandingBuffer) : ExpandingBuffer := empty

/-- `write(input)`: normalizes, concatenates onto `this.buf`, sets
`position` to the new buffer length and returns it. -/
def write (s : ExpandingBuffer) (input : WriteInput) : ExpandingBuffer × Nat :=
  let inBuffer := normalizeInput input
  let buf' := s.buf ++ inBuffer
  ({ buf := buf', position := buf'.length }, buf'.length)

/-- Sequentially `write` each chunk of a list (left to right). -/
def writeAll (s : ExpandingBuffer) (cs : List WriteInput) : ExpandingBuffer :=
  cs.foldl (fun a c => (write a c).1) s

end ExpandingBuffer

/-! ### ExpandingFile (src/ExpandingFile.ts) -/

/-- A positioned `fs.write` of `data` into file bytes `c` at offset `pos`:
bytes before `pos` are kept (zero-filled if the file is shorter than
`pos`), `data` overwrites from `pos`, and any bytes of the old file past
the written range survive. -/
def fsWrite (c : List Nat) (pos : Nat) (data : List Nat) : List Nat :=
  c.take pos ++ List.replicate (pos - c.length) 0 ++ data
    ++ c.drop (pos + data.length)

structure ExpandingFile where
  /-- the bytes of the file on disk -/
  contents : List Nat
  /-- whether the write handle is currently held (`this.fh` present) -/
  fh : Bool
  /-- `this.position`: cumulative bytes written since open, used as the
  offset of the next positioned write -/
  position : Nat
  deriving Repr, DecidableEq

namespace ExpandingFile

/-- State right after `open()`: the file is created/truncated (flag `w`),
handle held, `position = 0`. -/
def openFresh : ExpandingFile := ⟨[], true, 0⟩

/-- `write(input)`: not-opened check, then the shared normalization, a
positioned write at `this.position`, `position += bytesWritten`
(`bytesWritten` equals the full input length under the modelled
file-system semantics), returning the new position. -/
def write (s : ExpandingFile) (input : WriteInput) :
    Except RErr Nat × ExpandingFile :=
  if s.fh = false then (.error .notOpened, s)
  else
    let inBuffer := normalizeInput input
    let contents' := fsWrite s.contents s.position inBuffer
    let pos' := s.position + inBuffer.length
    (.ok pos', { s with contents := contents', position := pos' })

end ExpandingFile

/-! ### StreamPipeline (src/StreamPipeline.ts) -/

/-- The result record of `pump`: `{ offset, wrote }`. -/
structure PumpResult where
  offset : Nat
  wrote : Nat
  deriving Repr, DecidableEq

/-- The pipeline after `load`, together with the `ExpandingFile` it holds
a back-reference to (`this._destination` / `this.sbuf`), the bound
WriteStream's own sequential cursor, and the `autoClose` flag the stream
was created with. -/
structure StreamPipeline where
  /-- the destination `ExpandingFile` instance (`this._destination`) -/
  ef : ExpandingFile
  /-- whether `this.destination` (the WriteStream) is bound -/
  loaded : Bool
  /-- the WriteStream's own write offset: a stream created on the handle
  with flag `w` and no `start` writes sequentially from offset 0 -/
  streamCursor : Nat
  /-- `streamOpts.autoClose` used when the WriteStream was created -/
  autoClose : Bool
  deriving Repr, DecidableEq

namespace StreamPipeline

/-- `load(dest)`: throws the precondition error when `dest` holds no file
handle; otherwise stores the back-reference and creates the WriteStream
over `dest`'s handle with `autoClose: false` (the handle itself is left
open and untouched). -/
def load (dest : ExpandingFile) : Except RErr StreamPipeline :=
  if dest.fh = false then .error .notOpened
  else .ok { ef := dest, loaded := true, streamCursor := 0, autoClose := false }

/-- `_pump(content)` for a Buffer `content`: writes the bytes to the bound
WriteStream; in the write-completion callback captures the destination's
old position as `offset`, advances the destination's position by
`content.length` and resolves `{ offset, wrote: content.length }`.
(When nothing is loaded the source promise never settles; the model
reports that as an error outcome.) -/
def pumpBuffer (st : StreamPipeline) (content : List Nat) :
    Except RErr PumpResult × StreamPipeline :=
  if st.loaded = false then (.error .notOpened, st)
  else
    let oldPosition := st.ef.position
    let ef' := { st.ef with
                   contents := fsWrite st.ef.contents st.streamCursor content,
                   position := oldPosition + content.length }
    (.ok { offset := oldPosition, wrote := content.length },
     { st with ef := ef', streamCursor := st.streamCursor + content.length })

/-- The bytes an `fs.createReadStream` over a source of bytes `src`
delivers under src/StreamPipeline.ts's option assembly: `if (start)` is a
*truthiness* test, so `start = 0` (and a missing `start`) sets no range at
all; with a truthy `start`, `if (length)` likewise skips `end` for
`length = 0`, and otherwise sets `end = start + length - 1` (inclusive). -/
def streamedBytes (src : List Nat) (start? length? : Option Nat) : List Nat :=
  match start? with
  | none => src
  | some s =>
    if s = 0 then src
    else
      match length? with
      | none => src.drop s
      | some l =>
        if l = 0 then src.drop s
        else (src.drop s).take l

/-- `pump(source, start?, length?)` for a file-descriptor or path source
whose bytes are `src`, after the source-validation step: a ReadStream is
created with the options of `streamedBytes`, and `_pump` pipes it into the
destination, advancing the destination's position by `content.bytesRead`
(the number of bytes the stream delivered). -/
def pump (st : StreamPipeline) (src : List Nat) (start? length? : Option Nat) :
    Except RErr PumpResult × StreamPipeline :=
  pumpBuffer st (streamedBytes src start? length?)

/-- The ReadStream creation under the option assembly as revised in the
later source revision of `pump` (part_009), which tests
`start !== undefined` / `length !== undefined` instead of truthiness.
With both supplied it passes `end = start + length - 1` to
`fs.createReadStream`, whose option validation rejects `start > end` with
ERR_OUT_OF_RANGE — which happens exactly for `length = 0`, where
`end = start - 1` (and `end = -1` when `start = 0`). Otherwise the stream
delivers the bytes of the inclusive range, clamped at end of file. -/
def streamedBytesRev (src : List Nat) (start? length? : Option Nat) :
    Except RErr (List Nat) :=
  match start? with
  | none => .ok src
  | some s =>
    match length? with
    | none => .ok (src.drop s)
    | some l =>
      if (s : Int) + l - 1 < (s : Int) then .error .ioError
      else .ok ((src.drop s).take l)

/-- `pump` under the revised option assembly of part_009: a rejected
stream creation propagates its error without touching the destination;
otherwise the streamed bytes are piped as in `_pump`. -/
def pumpRev (st : StreamPipeline) (src : List Nat)
    (start? length? : Option Nat) : Except RErr PumpResult × StreamPipeline :=
  match streamedBytesRev src start? length? with
  | .error e => (.error e, st)
  | .ok content => pumpBuffer st content

end StreamPipeline

/-- The suffix invariant of a `ConsumableBuffer`: the working buffer is a
contiguous suffix of `originalBuffer`. -/
def ConsumableBuffer.Invariant (s : ConsumableBuffer) : Prop :=
  s.buf <:+ s.originalBuffer

/-- A positioned write at the current end of the file appends. -/
theorem fsWrite_at_length (c d : List Nat) : fsWrite c c.length d = c ++ d := by
  simp [fsWrite, List.drop_eq_nil_of_le]

/-- Shape of a successful `_pump` of a byte sequence on a loaded pipeline
whose stream cursor sits at the end of the destination file. -/
theorem pumpBuffer_loaded (st : StreamPipeline) (content : List Nat)
    (hl : st.loaded = true) (hc : st.streamCursor = st.ef.contents.length) :
    StreamPipeline.pumpBuffer st content
      = (.ok { offset := st.ef.position, wrote := content.length },
         { st with
             ef := { st.ef with
                       contents := st.ef.contents ++ content,
                       position := st.ef.position + content.length },
             streamCursor := st.streamCursor + content.length }) := by
  simp [StreamPipeline.pumpBuffer, hl, hc, fsWrite_at_length]

/-! ### Smoke tests (concrete evaluations of the embedding) -/

example : (ConsumableBuffer.read (ConsumableBuffer.make [1, 2, 3]) 2).1
    = .ok [1, 2] := rfl

example : (ConsumableBuffer.read (ConsumableBuffer.make [1, 2, 3]) 0).1
    = .error .invalidArg := rfl

example : (ConsumableFile.read (ConsumableFile.openFile [1, 2, 3]) 2).1
    = .ok [1, 2] := rfl

example : (ConsumableFile.seek (ConsumableFile.openFile [1, 2, 3, 4, 5]) 10).1
    = .error .outOfRange := rfl

example : (ConsumableFile.aseek (ConsumableFile.openFile [1, 2, 3, 4, 5]) 10).1
    = .ok () := rfl

example : toByte (-65535) = 1 := rfl

example :
    (ExpandingBuffer.write ExpandingBuffer.empty (.num (-65535))).1.buf
      = [1] := rfl

example :
    StreamPipeline.load ExpandingFile.openFresh
      = .ok { ef := ExpandingFile.openFresh, loaded := true,
              streamCursor := 0, autoClose := false } := rfl

example :
    StreamPipeline.streamedBytes [0, 1, 2, 3, 4, 5, 6, 7, 8, 9]
      (some 0) (some 4) = [0, 1, 2, 3, 4, 5, 6, 7, 8, 9] := rfl

example :
    StreamPipeline.streamedBytes [0, 1, 2, 3, 4, 5, 6, 7, 8, 9]
      (some 5) (some 4) = [5, 6, 7, 8] := rfl

/-! ### Claim C3 -/

/-- C3 (counterexample): `read(0)` does not succeed with an empty result —
on the concrete buffer `"INDEX"` and on an opened file of the same bytes,
`read(0)` throws the invalid-argument ("positive integer") error instead. -/
theorem c3_read_zero_counterexample :
    (ConsumableBuffer.read (ConsumableBuffer.make [73, 78, 68, 69, 88]) 0).1
        = .error .invalidArg ∧
    (ConsumableFile.read (ConsumableFile.openFile [73, 78, 68, 69, 88]) 0).1
        = .error .invalidArg :=
  ⟨rfl, rfl⟩

/-- C3 (amended): for every Consumable Buffer and every opened Consumable
File, `read(0)` fails with the invalid-argument ("Bytes parameter must be
a positive integer") error, leaving the cursor state unchanged and
performing no I/O. -/
theorem c3_read_zero_rejected :
    (∀ cb : ConsumableBuffer,
      ConsumableBuffer.read cb 0 = (.error .invalidArg, cb)) ∧
    (∀ (cf : ConsumableFile) (fsz : Int), cf.fd = true →
      cf.filesize = some fsz →
      ConsumableFile.read cf 0 = (.error .invalidArg, cf)) := by
  constructor
  · intro cb
    simp [ConsumableBuffer.read]
  · intro cf fsz hfd hfs
    simp [ConsumableFile.read, hfd, hfs]

/-- C3 (witness): the amended statement applied to the concrete buffer and
opened file over the single byte 7. -/
theorem c3_read_zero_rejected_witness :
    ConsumableBuffer.read (ConsumableBuffer.make [7]) 0
        = (.error .invalidArg, ConsumableBuffer.make [7]) ∧
    ConsumableFile.read (ConsumableFile.openFile [7]) 0
        = (.error .invalidArg, ConsumableFile.openFile [7]) :=
  ⟨c3_read_zero_rejected.1 (ConsumableBuffer.make [7]),
   c3_read_zero_rejected.2 (ConsumableFile.openFile [7]) 1 rfl rfl⟩

/-! ### Claim C4 -/

/-- C4 (counterexample): on a freshly-opened 5-byte file (position 0),
`seek(10)` fails with the out-of-range error (having moved position to
10), while `aseek(0 + 10)` succeeds and leaves position 10 — so the two do
not produce the same success-or-failure outcome. -/
theorem c4_seek_counterexample :
    (ConsumableFile.seek (ConsumableFile.openFile [1, 2, 3, 4, 5]) 10).1
        = .error .outOfRange ∧
    (ConsumableFile.aseek (ConsumableFile.openFile [1, 2, 3, 4, 5]) 10).1
        = .ok () ∧
    (ConsumableFile.seek (ConsumableFile.openFile [1, 2, 3, 4, 5]) 10).2.position
        = 10 ∧
    (ConsumableFile.aseek (ConsumableFile.openFile [1, 2, 3, 4, 5]) 10).2.position
        = 10 :=
  ⟨rfl, rfl, rfl, rfl⟩

/-- C4 (amended): `seek(n)` first sets position to `p + n` and then
delegates to `aseek(p + n)` on that updated state; consequently, whenever
the file is open, `0 < p + n`, `p ≤ filesize` and `p + n ≤ filesize`, the
call `seek(n)` produces the same outcome and the same final position
`p + n` as a direct `aseek(p + n)` — but not in general (see the
counterexample, where `p ≤ filesize < p + n`). -/
theorem c4_seek_aseek_agree (cf : ConsumableFile) (fsz n : Int)
    (hfd : cf.fd = true) (hfs : cf.filesize = some fsz)
    (hpos : 0 < cf.position + n) (hcur : cf.position ≤ fsz)
    (htgt : cf.position + n ≤ fsz) :
    ConsumableFile.seek cf n = ConsumableFile.aseek cf (cf.position + n) ∧
    ConsumableFile.seek cf n
        = (.ok (), { cf with position := cf.position + n }) := by
  have h1 : ¬ (cf.position + n ≤ 0) := by omega
  have h2 : ¬ (fsz < cf.position + n) := by omega
  have h3 : ¬ (fsz < cf.position) := by omega
  constructor <;>
    simp [ConsumableFile.seek, ConsumableFile.aseek, hfd, hfs, h1, h2, h3]

/-- C4 (witness): the amended statement applied to a freshly-opened 3-byte
file with `n = 2`. -/
theorem c4_seek_aseek_agree_witness :
    ConsumableFile.seek (ConsumableFile.openFile [1, 2, 3]) 2
        = ConsumableFile.aseek (ConsumableFile.openFile [1, 2, 3]) 2 :=
  (c4_seek_aseek_agree (ConsumableFile.openFile [1, 2, 3]) 3 2 rfl rfl
    (by decide) (by decide) (by decide)).1

/-! ### Claim C6 -/

/-- C6: for every Consumable Buffer and every opened Consumable File,
`read(n)` with `n` greater than the remaining unread length (the working
buffer's length, resp. `filesize - position`, a byte count) fails with the
out-of-range error and leaves the cursor state exactly as it was. -/
theorem c6_read_beyond_fails :
    (∀ (cb : ConsumableBuffer) (n : Int), (cb.buf.length : Int) < n →
      ConsumableBuffer.read cb n = (.error .outOfRange, cb)) ∧
    (∀ (cf : ConsumableFile) (fsz n : Int), cf.fd = true →
      cf.filesize = some fsz → ((fsz - cf.position).toNat : Int) < n →
      ConsumableFile.read cf n = (.error .outOfRange, cf)) := by
  constructor
  · intro cb n h
    have h1 : ¬ n ≤ 0 := by omega
    have h2 : cb.buf.length < n.toNat := by omega
    simp [ConsumableBuffer.read, h1, h2]
  · intro cf fsz n hfd hfs h
    have h1 : ¬ n ≤ 0 := by omega
    have h2 : fsz < cf.position + n := by omega
    simp [ConsumableFile.read, hfd, hfs, h1, h2]

/-- C6 (witness): reading 3 bytes from a 2-byte buffer and from an opened
2-byte file both fail out-of-range with the state unchanged. -/
theorem c6_read_beyond_fails_witness :
    ConsumableBuffer.read (ConsumableBuffer.make [5, 6]) 3
        = (.error .outOfRange, ConsumableBuffer.make [5, 6]) ∧
    ConsumableFile.read (ConsumableFile.openFile [5, 6]) 3
        = (.error .outOfRange, ConsumableFile.openFile [5, 6]) :=
  ⟨c6_read_beyond_fails.1 (ConsumableBuffer.make [5, 6]) 3 (by decide),
   c6_read_beyond_fails.2 (ConsumableFile.openFile [5, 6]) 2 3 rfl rfl
     (by decide)⟩

/-! ### Claim C9 -/

/-- C9: every operation of the Consumable Buffer — construction, reset,
read, seek and aseek — establishes or preserves the invariant that the
working buffer `buf` is a contiguous suffix of `originalBuffer`, on
success and on error alike. -/
theorem c9_suffix_invariant :
    (∀ b : List Nat, (ConsumableBuffer.make b).Invariant) ∧
    (∀ s : ConsumableBuffer, (ConsumableBuffer.reset s).Invariant) ∧
    (∀ (s : ConsumableBuffer) (n : Int), s.Invariant →
      ((ConsumableBuffer.read s n).2).Invariant) ∧
    (∀ (s : ConsumableBuffer) (n : Int), s.Invariant →
      ((ConsumableBuffer.seek s n).2).Invariant) ∧
    (∀ (s : ConsumableBuffer) (n : Int),
      ((ConsumableBuffer.aseek s n).2).Invariant) := by
  have hread : ∀ (s : ConsumableBuffer) (n : Int), s.Invariant →
      ((ConsumableBuffer.read s n).2).Invariant := by
    intro s n hs
    by_cases h1 : n ≤ 0
    · simpa [ConsumableBuffer.read, h1] using hs
    · by_cases h2 : s.buf.length < n.toNat
      · simpa [ConsumableBuffer.read, h1, h2] using hs
      · simp only [ConsumableBuffer.read, h1, h2, if_false]
        exact List.IsSuffix.trans (List.drop_suffix _ _) hs
  have hseek : ∀ (s : ConsumableBuffer) (n : Int), s.Invariant →
      ((ConsumableBuffer.seek s n).2).Invariant := by
    intro s n hs
    unfold ConsumableBuffer.seek
    split
    · exact hs
    · have := hread s n hs
      split <;> rename_i heq <;> rw [heq] at this <;> exact this
  refine ⟨fun b => ?_, fun s => ?_, hread, hseek, fun s n => ?_⟩
  · exact List.suffix_rfl
  · exact List.suffix_rfl
  · exact hseek (ConsumableBuffer.reset s) n List.suffix_rfl

/-- C9 (witness): the read-preservation part applied to a concrete
construction over three bytes. -/
theorem c9_suffix_invariant_witness :
    ((ConsumableBuffer.read (ConsumableBuffer.make [1, 2, 3]) 1).2).Invariant :=
  c9_suffix_invariant.2.2.1 (ConsumableBuffer.make [1, 2, 3]) 1
    List.suffix_rfl

/-! ### Claim C10 -/

/-- C10: if an opened Consumable File's `read(n)` passes the bounds check
(`position + n ≤ filesize`) but the underlying positioned read delivers
fewer than `n` bytes, the call fails with the short-read error and the
position has nevertheless already been advanced by `n` — this failed call
changes the position, unlike the out-of-range failure. -/
theorem c10_short_read_advances (cf : ConsumableFile) (fsz n : Int)
    (hfd : cf.fd = true) (hfs : cf.filesize = some fsz) (hn : 0 < n)
    (hpos : 0 ≤ cf.position) (hbound : cf.position + n ≤ fsz)
    (hshort :
      (((cf.contents.drop cf.position.toNat).take n.toNat).length : Int) < n) :
    ConsumableFile.read cf n
        = (.error .shortRead, { cf with position := cf.position + n }) ∧
    ({ cf with position := cf.position + n }).position ≠ cf.position := by
  have h1 : ¬ n ≤ 0 := by omega
  have h2 : ¬ fsz < cf.position + n := by omega
  have h3 : ¬ cf.position < 0 := by omega
  constructor
  · simp only [List.length_take, List.length_drop] at hshort
    simp [ConsumableFile.read, hfd, hfs, h1, h2, h3]
    omega
  · simp
    omega

/-- C10 (witness): a file opened when it held 5 bytes but since truncated
to nothing on disk — `read(3)` passes the bounds check, short-reads, and
leaves position 3. -/
theorem c10_short_read_advances_witness :
    ConsumableFile.read
        { contents := [], fd := true, filesize := some 5, position := 0 } 3
      = (.error .shortRead,
         { contents := [], fd := true, filesize := some 5, position := 0 + 3 }) :=
  (c10_short_read_advances
    { contents := [], fd := true, filesize := some 5, position := 0 } 5 3
    rfl rfl (by decide) (by decide) (by decide) (by decide)).1

/-! ### Claim C7 -/

/-- Writing a list of chunks concatenates their normalizations onto the
accumulated buffer. -/
theorem writeAll_buf (cs : List WriteInput) :
    ∀ s : ExpandingBuffer, (ExpandingBuffer.writeAll s cs).buf
      = s.buf ++ (cs.map normalizeInput).flatten := by
  induction cs with
  | nil => intro s; simp [ExpandingBuffer.writeAll]
  | cons c cs ih =>
    intro s
    have hstep : ExpandingBuffer.writeAll s (c :: cs)
        = ExpandingBuffer.writeAll ((ExpandingBuffer.write s c).1) cs := rfl
    rw [hstep, ih]
    simp [ExpandingBuffer.write]

/-- Writing preserves `position = buf.length`. -/
theorem writeAll_position (cs : List WriteInput) :
    ∀ s : ExpandingBuffer, s.position = s.buf.length →
      (ExpandingBuffer.writeAll s cs).position
        = (ExpandingBuffer.writeAll s cs).buf.length := by
  induction cs with
  | nil => intro s h; simpa [ExpandingBuffer.writeAll] using h
  | cons c cs ih =>
    intro s h
    exact ih ((ExpandingBuffer.write s c).1) (by simp [ExpandingBuffer.write])

/-- C7: starting from a fresh (equivalently, reset) Expanding Buffer,
writing chunks `c1..cm` in order leaves the accumulated buffer equal to
the concatenation of the normalized chunks and the position equal to its
length, and each individual write appends its normalized input and
returns the new total length. -/
theorem c7_expanding_buffer_concat :
    (∀ (eb : ExpandingBuffer) (c : WriteInput),
      (ExpandingBuffer.write eb c).1.buf = eb.buf ++ normalizeInput c ∧
      (ExpandingBuffer.write eb c).1.position
          = (ExpandingBuffer.write eb c).1.buf.length ∧
      (ExpandingBuffer.write eb c).2
          = (ExpandingBuffer.write eb c).1.buf.length) ∧
    (∀ eb : ExpandingBuffer,
      ExpandingBuffer.reset eb = ExpandingBuffer.empty) ∧
    (∀ cs : List WriteInput,
      (ExpandingBuffer.writeAll ExpandingBuffer.empty cs).buf
          = (cs.map normalizeInput).flatten ∧
      (ExpandingBuffer.writeAll ExpandingBuffer.empty cs).position
          = (cs.map normalizeInput).flatten.length) := by
  refine ⟨fun eb c => ⟨rfl, rfl, rfl⟩, fun eb => rfl, fun cs => ⟨?_, ?_⟩⟩
  · simpa using writeAll_buf cs ExpandingBuffer.empty
  · rw [writeAll_position cs ExpandingBuffer.empty rfl,
      writeAll_buf cs ExpandingBuffer.empty]
    simp [ExpandingBuffer.empty]

/-! ### Claim C8 -/

/-- C8: for every numeric input `v` (including out-of-byte-range values
such as -65535), Expanding Buffer's `write(v)` and Expanding File's
`write(v)` append the same single byte, produced by the one shared
normalization `Buffer.from([v])`, whose value is `v mod 256` — the low 8
bits of the two's-complement representation of `v`. -/
theorem c8_numeric_write_byte (v : Int) (eb : ExpandingBuffer)
    (ef : ExpandingFile) (hfh : ef.fh = true)
    (hpos : ef.position = ef.contents.length) :
    normalizeInput (.num v) = [(v % 256).toNat] ∧
    (ExpandingBuffer.write eb (.num v)).1.buf
        = eb.buf ++ [(v % 256).toNat] ∧
    (ExpandingFile.write ef (.num v)).2.contents
        = ef.contents ++ [(v % 256).toNat] ∧
    (ExpandingFile.write ef (.num v)).1 = .ok (ef.position + 1) := by
  refine ⟨rfl, rfl, ?_, ?_⟩
  · simp [ExpandingFile.write, hfh, normalizeInput, toByte, hpos,
      fsWrite_at_length]
  · simp [ExpandingFile.write, hfh, normalizeInput]

/-- C8 (witness): writing the single numeric value -65535 to an empty
Expanding Buffer and to a freshly-opened Expanding File appends the byte
1 = -65535 mod 256 to both. -/
theorem c8_numeric_write_byte_witness :
    (ExpandingBuffer.write ExpandingBuffer.empty (.num (-65535))).1.buf
        = ExpandingBuffer.empty.buf ++ [((-65535 : Int) % 256).toNat] ∧
    (ExpandingFile.write ExpandingFile.openFresh (.num (-65535))).2.contents
        = ExpandingFile.openFresh.contents ++ [((-65535 : Int) % 256).toNat] :=
  ⟨(c8_numeric_write_byte (-65535) ExpandingBuffer.empty
      ExpandingFile.openFresh rfl rfl).2.1,
   (c8_numeric_write_byte (-65535) ExpandingBuffer.empty
      ExpandingFile.openFresh rfl rfl).2.2.1⟩

/-! ### Claim C2 -/

/-- C2: `StreamPipeline.load(dest)` fails with the precondition error
exactly when the destination Expanding File holds no handle, and when the
destination is open it succeeds, binding the output stream (with
`autoClose: false`) over the destination's handle while storing the
destination back-reference unchanged — in particular the destination's
handle stays open. -/
theorem c2_load_precondition (ef : ExpandingFile) :
    (ef.fh = false → StreamPipeline.load ef = .error .notOpened) ∧
    (ef.fh = true → StreamPipeline.load ef
        = .ok { ef := ef, loaded := true, streamCursor := 0,
                autoClose := false }) := by
  constructor <;> intro h <;> simp [StreamPipeline.load, h]

/-- C2 (witness): the two parts applied to a closed and to a
freshly-opened Expanding File. -/
theorem c2_load_precondition_witness :
    StreamPipeline.load { contents := [], fh := false, position := 0 }
        = .error .notOpened ∧
    StreamPipeline.load ExpandingFile.openFresh
        = .ok { ef := ExpandingFile.openFresh, loaded := true,
                streamCursor := 0, autoClose := false } :=
  ⟨(c2_load_precondition { contents := [], fh := false, position := 0 }).1 rfl,
   (c2_load_precondition ExpandingFile.openFresh).2 rfl⟩

/-! ### Claim C1 -/

/-- C1: on a pipeline loaded over a freshly-opened Expanding File, pumping
a byte sequence of length L resolves with offset 0 and wrote L, an
immediately following pump of length M resolves with offset L and wrote M
(final position L + M); and in general every buffer pump's offset equals
the destination's position before the pump while the position afterwards
equals offset + wrote. -/
theorem c1_pump_position_tracking :
    (∀ (st : StreamPipeline) (content : List Nat), st.loaded = true →
      (StreamPipeline.pumpBuffer st content).1
          = .ok { offset := st.ef.position, wrote := content.length } ∧
      (StreamPipeline.pumpBuffer st content).2.ef.position
          = st.ef.position + content.length) ∧
    (∀ (bs cs : List Nat) (st0 : StreamPipeline),
      StreamPipeline.load ExpandingFile.openFresh = .ok st0 →
      (StreamPipeline.pumpBuffer st0 bs).1
          = .ok { offset := 0, wrote := bs.length } ∧
      (StreamPipeline.pumpBuffer
          (StreamPipeline.pumpBuffer st0 bs).2 cs).1
          = .ok { offset := bs.length, wrote := cs.length } ∧
      (StreamPipeline.pumpBuffer
          (StreamPipeline.pumpBuffer st0 bs).2 cs).2.ef.position
          = bs.length + cs.length) := by
  constructor
  · intro st content hl
    constructor <;> simp [StreamPipeline.pumpBuffer, hl]
  · intro bs cs st0 h
    simp only [StreamPipeline.load, ExpandingFile.openFresh] at h
    simp only [Bool.true_eq_false, if_false, Except.ok.injEq,
      reduceIte] at h
    subst h
    rw [pumpBuffer_loaded _ bs rfl rfl]
    rw [pumpBuffer_loaded _ cs rfl (by simp)]
    simp [ExpandingFile.openFresh]

/-- C1 (witness): a 3-byte pump then a 2-byte pump on a pipeline loaded
over a freshly-opened destination resolve with offsets 0 and 3 and leave
position 5. -/
theorem c1_pump_position_tracking_witness :
    (StreamPipeline.pumpBuffer
        { ef := ExpandingFile.openFresh, loaded := true, streamCursor := 0,
          autoClose := false } [10, 20, 30]).1
      = .ok { offset := 0, wrote := 3 } ∧
    (StreamPipeline.pumpBuffer
        (StreamPipeline.pumpBuffer
          { ef := ExpandingFile.openFresh, loaded := true, streamCursor := 0,
            autoClose := false } [10, 20, 30]).2 [40, 50]).1
      = .ok { offset := 3, wrote := 2 } ∧
    (StreamPipeline.pumpBuffer
        (StreamPipeline.pumpBuffer
          { ef := ExpandingFile.openFresh, loaded := true, streamCursor := 0,
            autoClose := false } [10, 20, 30]).2 [40, 50]).2.ef.position
      = 5 :=
  c1_pump_position_tracking.2 [10, 20, 30] [40, 50]
    { ef := ExpandingFile.openFresh, loaded := true, streamCursor := 0,
      autoClose := false } rfl

/-! ### Claim C5 -/

/-- C5 (counterexample): on a loaded pipeline over a fresh destination,
pumping a 10-byte source with `start = 0` and `length = 4` does not copy
only bytes 0..3 — the truthiness test `if (start)` drops the byte-range
options, the whole 10-byte source is streamed, and the result records
`wrote = 10`, not `wrote = 4`. -/
theorem c5_start_zero_counterexample :
    (StreamPipeline.pump
        { ef := ExpandingFile.openFresh, loaded := true, streamCursor := 0,
          autoClose := false }
        [0, 1, 2, 3, 4, 5, 6, 7, 8, 9] (some 0) (some 4)).1
      = .ok { offset := 0, wrote := 10 } ∧
    (StreamPipeline.pump
        { ef := ExpandingFile.openFresh, loaded := true, streamCursor := 0,
          autoClose := false }
        [0, 1, 2, 3, 4, 5, 6, 7, 8, 9] (some 0) (some 4)).2.ef.contents
      = [0, 1, 2, 3, 4, 5, 6, 7, 8, 9] ∧
    ({ offset := 0, wrote := 10 } : PumpResult)
      ≠ { offset := 0, wrote := 4 } := by
  refine ⟨rfl, rfl, by decide⟩

/-- C5 (amended): on a loaded pipeline whose stream cursor sits at the end
of the destination, pumping a source with both `start` and `length`
supplied copies exactly the source bytes at offsets
`start .. start + length - 1` when `start ≥ 1` and `length ≥ 1` (with
`wrote = length`); but when `start = 0` the truthiness check drops the
range options and the entire source is copied. Under the revised option
assembly of the later source revision (`start !== undefined`), the
claimed byte-range copy holds for every `start ≥ 0` provided
`length ≥ 1`; for `length = 0` that revision passes
`end = start - 1 < start` to `fs.createReadStream`, which rejects with
ERR_OUT_OF_RANGE, so the pump fails without touching the destination. -/
theorem c5_pump_range_amended (st : StreamPipeline) (src : List Nat)
    (hl : st.loaded = true) (hc : st.streamCursor = st.ef.contents.length) :
    (∀ start len : Nat, 1 ≤ start → 1 ≤ len → start + len ≤ src.length →
      (StreamPipeline.pump st src (some start) (some len)).1
          = .ok { offset := st.ef.position, wrote := len } ∧
      (StreamPipeline.pump st src (some start) (some len)).2.ef.contents
          = st.ef.contents ++ (src.drop start).take len) ∧
    (∀ len? : Option Nat,
      (StreamPipeline.pump st src (some 0) len?).1
          = .ok { offset := st.ef.position, wrote := src.length } ∧
      (StreamPipeline.pump st src (some 0) len?).2.ef.contents
          = st.ef.contents ++ src) ∧
    (∀ start len : Nat, 1 ≤ len → start + len ≤ src.length →
      (StreamPipeline.pumpRev st src (some start) (some len)).1
          = .ok { offset := st.ef.position, wrote := len } ∧
      (StreamPipeline.pumpRev st src (some start) (some len)).2.ef.contents
          = st.ef.contents ++ (src.drop start).take len) ∧
    (∀ start : Nat,
      StreamPipeline.pumpRev st src (some start) (some 0)
          = (.error .ioError, st)) := by
  refine ⟨fun start len hs hlen hb => ?_, fun len? => ?_,
    fun start len hlen hb => ?_, fun start => ?_⟩
  · have h0 : ¬ start = 0 := by omega
    have hl0 : ¬ len = 0 := by omega
    have hbytes : StreamPipeline.streamedBytes src (some start) (some len)
        = (src.drop start).take len := by
      simp [StreamPipeline.streamedBytes, h0, hl0]
    have hlen' : ((src.drop start).take len).length = len := by
      simp only [List.length_take, List.length_drop]
      omega
    rw [StreamPipeline.pump, hbytes, pumpBuffer_loaded st _ hl hc, hlen']
    exact ⟨rfl, rfl⟩
  · have hbytes : StreamPipeline.streamedBytes src (some 0) len? = src := by
      simp [StreamPipeline.streamedBytes]
    rw [StreamPipeline.pump, hbytes, pumpBuffer_loaded st _ hl hc]
    exact ⟨rfl, rfl⟩
  · have hcond : ¬ ((start : Int) + len - 1 < (start : Int)) := by omega
    have hbytes : StreamPipeline.streamedBytesRev src (some start) (some len)
        = .ok ((src.drop start).take len) := by
      simp [StreamPipeline.streamedBytesRev, hcond]
    have hlen' : ((src.drop start).take len).length = len := by
      simp only [List.length_take, List.length_drop]
      omega
    simp only [StreamPipeline.pumpRev, hbytes]
    rw [pumpBuffer_loaded st _ hl hc, hlen']
    exact ⟨rfl, rfl⟩
  · have hcond : (start : Int) + (0 : Nat) - 1 < (start : Int) := by omega
    simp [StreamPipeline.pumpRev, StreamPipeline.streamedBytesRev, hcond]

/-- C5 (witness): pumping bytes 1..2 (start 1, length 2) of the 5-byte
source [3,4,5,6,7] on a loaded fresh destination writes exactly [4,5],
while the revised pump with length 0 rejects without touching the
destination. -/
theorem c5_pump_range_amended_witness :
    (StreamPipeline.pump
        { ef := ExpandingFile.openFresh, loaded := true, streamCursor := 0,
          autoClose := false } [3, 4, 5, 6, 7] (some 1) (some 2)).1
      = .ok { offset := 0, wrote := 2 } ∧
    (StreamPipeline.pump
        { ef := ExpandingFile.openFresh, loaded := true, streamCursor := 0,
          autoClose := false } [3, 4, 5, 6, 7] (some 1) (some 2)).2.ef.contents
      = [4, 5] ∧
    StreamPipeline.pumpRev
        { ef := ExpandingFile.openFresh, loaded := true, streamCursor := 0,
          autoClose := false } [3, 4, 5, 6, 7] (some 2) (some 0)
      = (.error .ioError,
         { ef := ExpandingFile.openFresh, loaded := true, streamCursor := 0,
           autoClose := false }) :=
  ⟨((c5_pump_range_amended
      { ef := ExpandingFile.openFresh, loaded := true, streamCursor := 0,
        autoClose := false } [3, 4, 5, 6, 7] rfl rfl).1 1 2 (by decide)
      (by decide) (by decide)).1,
   ((c5_pump_range_amended
      { ef := ExpandingFile.openFresh, loaded := true, streamCursor := 0,
        autoClose := false } [3, 4, 5, 6, 7] rfl rfl).1 1 2 (by decide)
      (by decide) (by decide)).2,
   (c5_pump_range_amended
      { ef := ExpandingFile.openFresh, loaded := true, streamCursor := 0,
        autoClose := false } [3, 4, 5, 6, 7] rfl rfl).2.2.2 2⟩

end ByteAccordion
